import Mathlib

/-!
Verification of the 3D training-slice extraction script
(`ML DL training/3D_training_extraction.py`).

The script loads 3D image/label volumes, slices them along the three
orthogonal axes, keeps every slice whose label content passes a
minimum-mask filter, and writes the kept slice pairs into an output
directory.  We embed the volumes as nested lists indexed (z, y, x),
the label filter, the slice extraction, the output naming, and the
per-file pipeline as a function from inputs to a list of filesystem
and console effects.
-/

namespace Extraction3D

/-- A 2D slice: rows of integer pixel values. -/
abbrev Slice2 := List (List Nat)

/-- A 3D volume indexed (z, y, x). -/
abbrev Vol := List (List (List Nat))

/-- A 4D volume indexed (z, y, x, channel). -/
abbrev Vol4 := List (List (List (List Nat)))

/-- Number of distinct values in a list, as computed by `np.unique` followed
by `len`. -/
def uniqueCount (l : List Nat) : Nat := l.dedup.length

/-- All pixel values of a 2D slice, in row-major order. -/
def vals (s : Slice2) : List Nat := s.flatten

/-- The script's `num_masks = len(np.unique(mask_slice)) - 1`.  The
subtraction is Python integer arithmetic, so the result lives in `Int`. -/
def numMasks (s : Slice2) : Int := (uniqueCount (vals s) : Int) - 1

/-- Number of distinct non-zero values of a slice (what the script's comment
says `num_masks` is meant to count). -/
def distinctNonzero (s : Slice2) : Nat :=
  ((vals s).filter (fun v => decide (v ≠ 0))).dedup.length

/-- `masks[z, :, :]`. -/
def sliceXY (m : Vol) (z : Nat) : Slice2 := m.getD z []

/-- `masks[:, y, :]`: row `z` of the result is `masks[z][y]`. -/
def sliceXZ (m : Vol) (y : Nat) : Slice2 :=
  m.map (fun plane => plane.getD y [])

/-- `masks[:, :, x]`: entry `(z, y)` of the result is `masks[z][y][x]`. -/
def sliceYZ (m : Vol) (x : Nat) : Slice2 :=
  m.map (fun plane => plane.map (fun row => row.getD x 0))

/-- `astype(np.uint16)`: every pixel is reduced modulo 2^16. -/
def castSlice (s : Slice2) : Slice2 :=
  s.map (fun row => row.map (fun v => v % 65536))

/-- Indices `z` in `range nz` whose XY label slice passes the
`num_masks >= min_masks` filter, in loop order. -/
def savedXY (masks : Vol) (mm : Int) (nz : Nat) : List Nat :=
  (List.range nz).filter (fun z => decide (mm ≤ numMasks (sliceXY masks z)))

/-- Indices `y` whose XZ label slice passes the filter. -/
def savedXZ (masks : Vol) (mm : Int) (ny : Nat) : List Nat :=
  (List.range ny).filter (fun y => decide (mm ≤ numMasks (sliceXZ masks y)))

/-- Indices `x` whose YZ label slice passes the filter. -/
def savedYZ (masks : Vol) (mm : Int) (nx : Nat) : List Nat :=
  (List.range nx).filter (fun x => decide (mm ≤ numMasks (sliceYZ masks x)))

/-- Total saved-slice count of one file: the three per-axis counts summed. -/
def savedCount (masks : Vol) (mm : Int) (nz ny nx : Nat) : Nat :=
  (savedXY masks mm nz).length + (savedXZ masks mm ny).length +
    (savedYZ masks mm nx).length

/-- Zero-padding of a decimal index to a minimum width of 3, Python `%03d`. -/
def pad3 (n : Nat) : String :=
  if n < 10 then ("00" : String) ++ toString n
  else if n < 100 then ("0" : String) ++ toString n
  else toString n

def imgNameXY (stem : String) (z : Nat) : String :=
  stem ++ ("_XY_Z" : String) ++ pad3 z ++ (".tif" : String)

def maskNameXY (stem : String) (z : Nat) : String :=
  stem ++ ("_XY_Z" : String) ++ pad3 z ++ ("_cp_masks.tif" : String)

def imgNameXZ (stem : String) (y : Nat) : String :=
  stem ++ ("_XZ_Y" : String) ++ pad3 y ++ (".tif" : String)

def maskNameXZ (stem : String) (y : Nat) : String :=
  stem ++ ("_XZ_Y" : String) ++ pad3 y ++ ("_cp_masks.tif" : String)

def imgNameYZ (stem : String) (x : Nat) : String :=
  stem ++ ("_YZ_X" : String) ++ pad3 x ++ (".tif" : String)

def maskNameYZ (stem : String) (x : Nat) : String :=
  stem ++ ("_YZ_X" : String) ++ pad3 x ++ ("_cp_masks.tif" : String)

/-- Observable effects of the script: directory creation, file reads,
file writes (directory, file name, written pixel data) and console
warnings. -/
inductive Effect where
  | mkdir (dir : String) : Effect
  | read (dir : String) (name : String) : Effect
  | write (dir : String) (name : String) (contents : Slice2) : Effect
  | warn (msg : String) : Effect
  deriving DecidableEq

def Effect.isWrite : Effect → Bool
  | .write _ _ _ => true
  | _ => false

/-- An effect that mutates the filesystem (creation or write; the script
never deletes anything). -/
def Effect.isMutation : Effect → Bool
  | .mkdir _ => true
  | .write _ _ _ => true
  | _ => false

/-- The image array as loaded by `imread`: either already 3D, or 4D with a
trailing channel axis. -/
inductive ImgData where
  | d3 (v : Vol)
  | d4 (v : Vol4)
  deriving DecidableEq

/-- `img[..., 0]`: keep channel 0 of every voxel. -/
def squeeze4 (v : Vol4) : Vol :=
  v.map (fun plane => plane.map (fun row => row.map (fun cell => cell.getD 0 0)))

/-- The size of the last axis of a (rectangular) 4D array, `img.shape[-1]`. -/
def lastDim4 (v : Vol4) : Nat :=
  (((v.getD 0 []).getD 0 []).getD 0 []).length

/-- Shape handling of the script: a 4D array with trailing axis of size 1 is
squeezed to 3D; any remaining non-3D array makes the subsequent
`nz, ny, nx = img.shape` unpacking raise. -/
def normalizeImg : ImgData → Except String Vol
  | .d3 v => Except.ok v
  | .d4 v =>
    if lastDim4 v = 1 then Except.ok (squeeze4 v)
    else Except.error ("cannot unpack 4-axis shape into nz, ny, nx")

/-- `nz, ny, nx = img.shape` of a rectangular 3D array. -/
def shape3 (v : Vol) : Nat × Nat × Nat :=
  (v.length, (v.getD 0 []).length, ((v.getD 0 []).getD 0 []).length)

/-- Writes of the XY loop: for every saved z, the image slice then the
uint16-cast mask slice. -/
def xyWrites (outDir stem : String) (img masks : Vol) (mm : Int) (nz : Nat) :
    List Effect :=
  (savedXY masks mm nz).flatMap (fun z =>
    [Effect.write outDir (imgNameXY stem z) (sliceXY img z),
     Effect.write outDir (maskNameXY stem z) (castSlice (sliceXY masks z))])

/-- Writes of the XZ loop. -/
def xzWrites (outDir stem : String) (img masks : Vol) (mm : Int) (ny : Nat) :
    List Effect :=
  (savedXZ masks mm ny).flatMap (fun y =>
    [Effect.write outDir (imgNameXZ stem y) (sliceXZ img y),
     Effect.write outDir (maskNameXZ stem y) (castSlice (sliceXZ masks y))])

/-- Writes of the YZ loop. -/
def yzWrites (outDir stem : String) (img masks : Vol) (mm : Int) (nx : Nat) :
    List Effect :=
  (savedYZ masks mm nx).flatMap (fun x =>
    [Effect.write outDir (imgNameYZ stem x) (sliceYZ img x),
     Effect.write outDir (maskNameYZ stem x) (castSlice (sliceYZ masks x))])

/-- One discovered image file together with what the filesystem holds for
it: the loaded image data, whether the companion seg file exists, whether
its dictionary holds the `masks` key, and the label volume. -/
structure InputFile where
  stem : String
  img : ImgData
  segExists : Bool
  segHasMasks : Bool
  masks : Vol
  deriving DecidableEq

def imgFileName (stem : String) : String := stem ++ (".tif" : String)

def segFileName (stem : String) : String := stem ++ ("_seg.npy" : String)

/-- Processing of a single image file: the effects it performs, and the
error message of the exception it raises, if any.  Mirrors the body of the
script's main loop: seg-existence check, loads, masks-key check, shape
normalization, then the three axis loops. -/
def processFile (inDir outDir : String) (mm : Int) (f : InputFile) :
    List Effect × Option String :=
  if f.segExists = false then
    ([Effect.warn ("No _seg.npy file found, skipping")], none)
  else
    let reads := [Effect.read inDir (imgFileName f.stem),
                  Effect.read inDir (segFileName f.stem)]
    if f.segHasMasks = false then
      (reads ++ [Effect.warn ("No masks in _seg.npy file, skipping")], none)
    else
      match normalizeImg f.img with
      | Except.error e => (reads, some e)
      | Except.ok img =>
        (reads ++ xyWrites outDir f.stem img f.masks mm (shape3 img).1
               ++ xzWrites outDir f.stem img f.masks mm (shape3 img).2.1
               ++ yzWrites outDir f.stem img f.masks mm (shape3 img).2.2,
         none)

/-- In-process configuration constants of the script. -/
structure Config where
  train_dir : String
  output_dir : String
  anisotropy : Rat
  min_masks : Int

/-- The main loop over discovered files; an unhandled exception aborts the
remainder of the batch. -/
def runFiles (inDir outDir : String) (mm : Int) : List InputFile → List Effect
  | [] => []
  | f :: rest =>
    match processFile inDir outDir mm f with
    | (effs, some _) => effs
    | (effs, none) => effs ++ runFiles inDir outDir mm rest

/-- The whole script: create the output directory, then process every
discovered file. -/
def runPipeline (cfg : Config) (files : List InputFile) : List Effect :=
  Effect.mkdir cfg.output_dir ::
    runFiles cfg.train_dir cfg.output_dir cfg.min_masks files

/-- The 10x20x20 label volume of the spec's concrete scenario: label 5 on
the whole plane z = 3, label 7 at voxel (3, 10, 10), zero elsewhere. -/
def c2vol : Vol :=
  (List.range 10).map (fun z =>
    (List.range 20).map (fun y =>
      (List.range 20).map (fun x =>
        if z = 3 then (if y = 10 ∧ x = 10 then 7 else 5) else 0)))

/-- A 1x1x2 label volume holding background and the label 65536. -/
def mod65Vol : Vol := [[[0, 65536]]]

/-! Helper lemmas shared between the claim theorems. -/

lemma mem_savedXY {masks : Vol} {mm : Int} {nz z : Nat} :
    z ∈ savedXY masks mm nz ↔ z < nz ∧ mm ≤ numMasks (sliceXY masks z) := by
  simp [savedXY, List.mem_filter, List.mem_range]

lemma mem_savedXZ {masks : Vol} {mm : Int} {ny y : Nat} :
    y ∈ savedXZ masks mm ny ↔ y < ny ∧ mm ≤ numMasks (sliceXZ masks y) := by
  simp [savedXZ, List.mem_filter, List.mem_range]

lemma mem_savedYZ {masks : Vol} {mm : Int} {nx x : Nat} :
    x ∈ savedYZ masks mm nx ↔ x < nx ∧ mm ≤ numMasks (sliceYZ masks x) := by
  simp [savedYZ, List.mem_filter, List.mem_range]

lemma numMasks_of_zero_mem (s : Slice2) (h : (0 : Nat) ∈ vals s) :
    numMasks s = (distinctNonzero s : Int) := by
  have hmem : (0 : Nat) ∈ (vals s).toFinset := List.mem_toFinset.mpr h
  have hpos : 0 < (vals s).toFinset.card := Finset.card_pos.mpr ⟨0, hmem⟩
  have hfilter : ((vals s).filter (fun v => decide (v ≠ 0))).toFinset =
      (vals s).toFinset.erase 0 := by
    rw [List.toFinset_filter]
    simp [Finset.filter_ne']
  have h1 : uniqueCount (vals s) = (vals s).toFinset.card :=
    (List.card_toFinset _).symm
  have h2 : distinctNonzero s = ((vals s).toFinset.erase 0).card := by
    rw [distinctNonzero, ← List.card_toFinset, hfilter]
  rw [numMasks, h1, h2, Finset.card_erase_of_mem hmem]
  omega

lemma xyWrites_mem {outDir stem : String} {img masks : Vol} {mm : Int}
    {nz : Nat} {e : Effect} (he : e ∈ xyWrites outDir stem img masks mm nz) :
    ∃ n c, e = Effect.write outDir n c := by
  simp only [xyWrites, List.mem_flatMap] at he
  rcases he with ⟨z, _, hz⟩
  simp only [List.mem_cons, List.not_mem_nil, or_false] at hz
  rcases hz with h | h <;> exact ⟨_, _, h⟩

lemma xzWrites_mem {outDir stem : String} {img masks : Vol} {mm : Int}
    {ny : Nat} {e : Effect} (he : e ∈ xzWrites outDir stem img masks mm ny) :
    ∃ n c, e = Effect.write outDir n c := by
  simp only [xzWrites, List.mem_flatMap] at he
  rcases he with ⟨y, _, hy⟩
  simp only [List.mem_cons, List.not_mem_nil, or_false] at hy
  rcases hy with h | h <;> exact ⟨_, _, h⟩

lemma yzWrites_mem {outDir stem : String} {img masks : Vol} {mm : Int}
    {nx : Nat} {e : Effect} (he : e ∈ yzWrites outDir stem img masks mm nx) :
    ∃ n c, e = Effect.write outDir n c := by
  simp only [yzWrites, List.mem_flatMap] at he
  rcases he with ⟨x, _, hx⟩
  simp only [List.mem_cons, List.not_mem_nil, or_false] at hx
  rcases hx with h | h <;> exact ⟨_, _, h⟩

lemma length_pairWrites (l : List Nat) (f g : Nat → Effect) :
    (l.flatMap (fun z => [f z, g z])).length = 2 * l.length := by
  induction l with
  | nil => rfl
  | cons a t ih =>
    simp only [List.flatMap_cons, List.length_append, List.length_cons, ih]
    simp [Nat.mul_succ]
    omega

lemma filter_isWrite_xyWrites (outDir stem : String) (img masks : Vol)
    (mm : Int) (nz : Nat) :
    (xyWrites outDir stem img masks mm nz).filter Effect.isWrite =
      xyWrites outDir stem img masks mm nz := by
  apply List.filter_eq_self.mpr
  intro e he
  rcases xyWrites_mem he with ⟨n, c, rfl⟩
  rfl

lemma filter_isWrite_xzWrites (outDir stem : String) (img masks : Vol)
    (mm : Int) (ny : Nat) :
    (xzWrites outDir stem img masks mm ny).filter Effect.isWrite =
      xzWrites outDir stem img masks mm ny := by
  apply List.filter_eq_self.mpr
  intro e he
  rcases xzWrites_mem he with ⟨n, c, rfl⟩
  rfl

lemma filter_isWrite_yzWrites (outDir stem : String) (img masks : Vol)
    (mm : Int) (nx : Nat) :
    (yzWrites outDir stem img masks mm nx).filter Effect.isWrite =
      yzWrites outDir stem img masks mm nx := by
  apply List.filter_eq_self.mpr
  intro e he
  rcases yzWrites_mem he with ⟨n, c, rfl⟩
  rfl

lemma length_xyWrites (outDir stem : String) (img masks : Vol) (mm : Int)
    (nz : Nat) :
    (xyWrites outDir stem img masks mm nz).length =
      2 * (savedXY masks mm nz).length :=
  length_pairWrites _ _ _

lemma length_xzWrites (outDir stem : String) (img masks : Vol) (mm : Int)
    (ny : Nat) :
    (xzWrites outDir stem img masks mm ny).length =
      2 * (savedXZ masks mm ny).length :=
  length_pairWrites _ _ _

lemma length_yzWrites (outDir stem : String) (img masks : Vol) (mm : Int)
    (nx : Nat) :
    (yzWrites outDir stem img masks mm nx).length =
      2 * (savedYZ masks mm nx).length :=
  length_pairWrites _ _ _

/-!
Claim C1.  As stated it is false: the script's filter is
`len(np.unique(mask_slice)) - 1 >= min_masks`, which equals the distinct
non-zero count only when the slice holds at least one background pixel.
-/

/-- C1, counterexample: the 1x1x1 volume whose only voxel carries label 5.
Its XY slice at z = 0 contains a non-zero label and has one distinct
non-zero label (so the claim, with the default threshold min_masks = 1,
says it is persisted), yet the script does not save it: with no background
pixel, `len(np.unique) - 1` is 0. -/
theorem c1_counterexample :
    (1 : Int) ≤ (distinctNonzero (sliceXY [[[5]]] 0) : Int) ∧
      (5 : Nat) ∈ vals (sliceXY [[[5]]] 0) ∧
      0 ∉ savedXY [[[5]]] 1 1 := by
  decide

/-- C1, amended: a slice is persisted iff `len(np.unique(slice)) - 1` is at
least `min_masks` (along each of the three axes); that quantity equals the
number of distinct non-zero labels whenever the slice contains at least one
background-0 pixel; at threshold 1 the saved indices are exactly those whose
slice holds at least two distinct values; and the number of slice pairs a
file writes is the sum of the saved counts of the three axes. -/
theorem c1_amended :
    (∀ (masks : Vol) (mm : Int) (nz z : Nat),
      z ∈ savedXY masks mm nz ↔ z < nz ∧ mm ≤ numMasks (sliceXY masks z)) ∧
    (∀ (masks : Vol) (mm : Int) (ny y : Nat),
      y ∈ savedXZ masks mm ny ↔ y < ny ∧ mm ≤ numMasks (sliceXZ masks y)) ∧
    (∀ (masks : Vol) (mm : Int) (nx x : Nat),
      x ∈ savedYZ masks mm nx ↔ x < nx ∧ mm ≤ numMasks (sliceYZ masks x)) ∧
    (∀ s : Slice2, (0 : Nat) ∈ vals s →
      numMasks s = (distinctNonzero s : Int)) ∧
    (∀ (masks : Vol) (nz z : Nat),
      z ∈ savedXY masks 1 nz ↔
        z < nz ∧ 2 ≤ uniqueCount (vals (sliceXY masks z))) ∧
    (∀ (inDir outDir : String) (mm : Int) (f : InputFile) (img : Vol),
      f.segExists = true → f.segHasMasks = true →
      normalizeImg f.img = Except.ok img →
      ((processFile inDir outDir mm f).1.filter Effect.isWrite).length =
        2 * savedCount f.masks mm (shape3 img).1 (shape3 img).2.1
              (shape3 img).2.2) := by
  refine ⟨fun _ _ _ _ => mem_savedXY, fun _ _ _ _ => mem_savedXZ,
    fun _ _ _ _ => mem_savedYZ, numMasks_of_zero_mem, ?_, ?_⟩
  · intro masks nz z
    rw [mem_savedXY, numMasks]
    omega
  · intro inDir outDir mm f img hse hsh hnorm
    simp only [processFile, hse, hsh, hnorm, Bool.true_eq_false, if_false,
      List.filter_append, List.length_append]
    rw [filter_isWrite_xyWrites, filter_isWrite_xzWrites,
      filter_isWrite_yzWrites, length_xyWrites, length_xzWrites,
      length_yzWrites, savedCount]
    simp [Effect.isWrite]
    omega

/-- C1, witness for the amended claim at concrete inputs. -/
theorem c1_amended_witness :
    numMasks [[0, 5]] = (distinctNonzero [[0, 5]] : Int) ∧
      0 ∈ savedXY [[[0, 5]]] 1 1 :=
  ⟨c1_amended.2.2.2.1 [[0, 5]] (by decide),
   (c1_amended.1 [[[0, 5]]] 1 1 0).mpr (by decide)⟩

/-!
Claim C2.  As stated it is false: the label-5 plane at z = 3 meets every
XZ plane and every YZ plane, so every y index and every x index is saved,
not only y = 10 and x = 10.
-/

set_option maxRecDepth 100000 in
/-- C2, counterexample: on the spec's 10x20x20 scenario volume, the XZ scan
at threshold 1 also saves y = 0 (the z = 3 row of that plane is full of
label 5), so the saved Y indices are not exactly the singleton 10. -/
theorem c2_counterexample :
    0 ∈ savedXZ c2vol 1 20 ∧ savedXZ c2vol 1 20 ≠ [10] := by
  decide

set_option maxRecDepth 100000 in
/-- C2, amended: on the scenario volume, at threshold 1 exactly one XY
slice (z = 3) is saved and it contains exactly the labels 5 and 7; the
label-5 plane intersects every XZ and every YZ plane, so all twenty Y
indices and all twenty X indices are saved (none is skipped as empty). -/
theorem c2_amended :
    savedXY c2vol 1 10 = [3] ∧
      (vals (sliceXY c2vol 3)).toFinset = ({5, 7} : Finset Nat) ∧
      savedXZ c2vol 1 20 = List.range 20 ∧
      savedYZ c2vol 1 20 = List.range 20 := by
  decide

/-- C6: for a fixed label volume and fixed axis extents, raising the
min_masks threshold never increases the number of saved slices. -/
theorem c6_threshold_antitone (masks : Vol) (nz ny nx : Nat) (mm1 mm2 : Int)
    (h : mm1 ≤ mm2) :
    savedCount masks mm2 nz ny nx ≤ savedCount masks mm1 nz ny nx := by
  have mono : ∀ (l : List Nat) (f : Nat → Int),
      ((l.filter (fun i => decide (mm2 ≤ f i))).length ≤
        (l.filter (fun i => decide (mm1 ≤ f i))).length) := by
    intro l f
    apply List.Sublist.length_le
    apply List.monotone_filter_right
    intro a ha
    simp only [decide_eq_true_eq] at ha ⊢
    omega
  have h1 := mono (List.range nz) (fun z => numMasks (sliceXY masks z))
  have h2 := mono (List.range ny) (fun y => numMasks (sliceXZ masks y))
  have h3 := mono (List.range nx) (fun x => numMasks (sliceYZ masks x))
  simp only [savedCount, savedXY, savedXZ, savedYZ]
  omega

/-- C6, witness at a concrete volume and thresholds 1 and 2. -/
theorem c6_threshold_antitone_witness :
    savedCount [[[0, 1]]] 2 1 1 2 ≤ savedCount [[[0, 1]]] 1 1 1 2 :=
  c6_threshold_antitone [[[0, 1]]] 1 1 2 1 2 (by decide)

/-- C3: a 4D image whose trailing axis has size 1 is processed exactly like
the 3D image obtained by dropping that axis: the same effects, hence the
same written files with the same names and contents. -/
theorem c3_squeeze_equivalent (inDir outDir stem : String) (mm : Int)
    (se sh : Bool) (masks : Vol) (v : Vol4) (h : lastDim4 v = 1) :
    processFile inDir outDir mm ⟨stem, ImgData.d4 v, se, sh, masks⟩ =
      processFile inDir outDir mm
        ⟨stem, ImgData.d3 (squeeze4 v), se, sh, masks⟩ := by
  simp only [processFile, normalizeImg, h, if_true]

/-- C3, witness: a concrete 1x1x1x1 image against its squeezed form. -/
theorem c3_squeeze_equivalent_witness :
    processFile ("i") ("o") 1
        ⟨("s"), ImgData.d4 [[[[3]]]], true, true, [[[2]]]⟩ =
      processFile ("i") ("o") 1
        ⟨("s"), ImgData.d3 (squeeze4 [[[[3]]]]), true, true, [[[2]]]⟩ :=
  c3_squeeze_equivalent ("i") ("o") ("s") 1 true true [[[2]]] [[[[3]]]]
    (by decide)

/-- C4: a 4D image whose trailing axis has size greater than 1 makes the
file's processing raise (the `nz, ny, nx = img.shape` unpacking fails)
before any slice of that file is written, and the raised exception aborts
the remainder of the batch. -/
theorem c4_reject_4d (inDir outDir stem : String) (mm : Int) (masks : Vol)
    (v : Vol4) (h : 1 < lastDim4 v) :
    (processFile inDir outDir mm
        ⟨stem, ImgData.d4 v, true, true, masks⟩).2.isSome = true ∧
    (∀ e ∈ (processFile inDir outDir mm
        ⟨stem, ImgData.d4 v, true, true, masks⟩).1, e.isWrite = false) ∧
    (∀ rest, runFiles inDir outDir mm
        (⟨stem, ImgData.d4 v, true, true, masks⟩ :: rest) =
      (processFile inDir outDir mm
        ⟨stem, ImgData.d4 v, true, true, masks⟩).1) := by
  have hne : lastDim4 v ≠ 1 := by omega
  refine ⟨?_, ?_, ?_⟩
  · simp [processFile, normalizeImg, hne]
  · intro e he
    simp only [processFile, normalizeImg, hne, if_false,
      Bool.true_eq_false] at he
    simp only [List.mem_cons, List.not_mem_nil, or_false] at he
    rcases he with rfl | rfl <;> rfl
  · intro rest
    simp [runFiles, processFile, normalizeImg, hne]

/-- C4, witness: a 1x1x1x2 image is rejected with no write. -/
theorem c4_reject_4d_witness :
    (processFile ("i") ("o") 1
        ⟨("s"), ImgData.d4 [[[[3, 4]]]], true, true, [[[2]]]⟩).2.isSome =
      true :=
  (c4_reject_4d ("i") ("o") ("s") 1 [[[2]]] [[[[3, 4]]]] (by decide)).1

/-- C5: a file whose companion seg file is missing, or whose seg data lacks
the masks key, produces a warning, no write at all and no exception, and
the loop goes on to process the remaining files. -/
theorem c5_skip_and_continue (inDir outDir : String) (mm : Int)
    (f : InputFile) (rest : List InputFile)
    (h : f.segExists = false ∨ f.segHasMasks = false) :
    (processFile inDir outDir mm f).2 = none ∧
    (∃ m, Effect.warn m ∈ (processFile inDir outDir mm f).1) ∧
    (∀ e ∈ (processFile inDir outDir mm f).1, e.isWrite = false) ∧
    runFiles inDir outDir mm (f :: rest) =
      (processFile inDir outDir mm f).1 ++ runFiles inDir outDir mm rest := by
  have key : ∃ eff, processFile inDir outDir mm f = (eff, none) ∧
      (∃ m, Effect.warn m ∈ eff) ∧ (∀ e ∈ eff, e.isWrite = false) := by
    by_cases hse : f.segExists = false
    · refine ⟨[Effect.warn ("No _seg.npy file found, skipping")],
        by simp [processFile, hse],
        ⟨("No _seg.npy file found, skipping"), by simp⟩, ?_⟩
      intro e he
      simp only [List.mem_singleton] at he
      subst he; rfl
    · rcases h with h | h
      · exact absurd h hse
      · rw [Bool.not_eq_false] at hse
        refine ⟨[Effect.read inDir (imgFileName f.stem),
                 Effect.read inDir (segFileName f.stem),
                 Effect.warn ("No masks in _seg.npy file, skipping")],
          by simp [processFile, hse, h],
          ⟨("No masks in _seg.npy file, skipping"), by simp⟩, ?_⟩
        intro e he
        simp only [List.mem_cons, List.not_mem_nil, or_false] at he
        rcases he with rfl | rfl | rfl <;> rfl
  rcases key with ⟨eff, heq, hwarn, hnw⟩
  refine ⟨by rw [heq], by rw [heq]; exact hwarn, by rw [heq]; exact hnw, ?_⟩
  simp [runFiles, heq]

/-- C5, witness: a concrete file with no seg companion is skipped and the
batch continues (here with an empty remainder). -/
theorem c5_skip_and_continue_witness :
    (processFile ("i") ("o") 1
      ⟨("s"), ImgData.d3 [[[2]]], false, true, [[[2]]]⟩).2 = none :=
  (c5_skip_and_continue ("i") ("o") 1
    ⟨("s"), ImgData.d3 [[[2]]], false, true, [[[2]]]⟩ [] (Or.inl rfl)).1

/-! String helpers for the naming claim. -/

lemma name_data_get (stem t p e : String) (k : Nat)
    (hk : k < t.data.length) :
    (stem ++ t ++ p ++ e).data[stem.data.length + k]? = t.data[k]? := by
  have hd : (stem ++ t ++ p ++ e).data =
      stem.data ++ (t.data ++ (p.data ++ e.data)) := by
    simp [List.append_assoc]
  rw [hd, List.getElem?_append_right (Nat.le_add_right _ _),
    Nat.add_sub_cancel_left, List.getElem?_append_left hk]

lemma names_distinct (stem t1 t2 p1 p2 e1 e2 : String) (k : Nat)
    (h1 : k < t1.data.length) (h2 : k < t2.data.length)
    (hne : t1.data[k]? ≠ t2.data[k]?) :
    stem ++ t1 ++ p1 ++ e1 ≠ stem ++ t2 ++ p2 ++ e2 := by
  intro h
  apply hne
  rw [← name_data_get stem t1 p1 e1 k h1,
    ← name_data_get stem t2 p2 e2 k h2, h]

lemma xyWrites_mem_name {outDir stem : String} {img masks : Vol} {mm : Int}
    {nz : Nat} {e : Effect} (he : e ∈ xyWrites outDir stem img masks mm nz) :
    ∃ i c, e = Effect.write outDir (imgNameXY stem i) c ∨
      e = Effect.write outDir (maskNameXY stem i) c := by
  simp only [xyWrites, List.mem_flatMap] at he
  rcases he with ⟨z, _, hz⟩
  simp only [List.mem_cons, List.not_mem_nil, or_false] at hz
  rcases hz with h | h
  · exact ⟨z, _, Or.inl h⟩
  · exact ⟨z, _, Or.inr h⟩

lemma xzWrites_mem_name {outDir stem : String} {img masks : Vol} {mm : Int}
    {ny : Nat} {e : Effect} (he : e ∈ xzWrites outDir stem img masks mm ny) :
    ∃ i c, e = Effect.write outDir (imgNameXZ stem i) c ∨
      e = Effect.write outDir (maskNameXZ stem i) c := by
  simp only [xzWrites, List.mem_flatMap] at he
  rcases he with ⟨y, _, hy⟩
  simp only [List.mem_cons, List.not_mem_nil, or_false] at hy
  rcases hy with h | h
  · exact ⟨y, _, Or.inl h⟩
  · exact ⟨y, _, Or.inr h⟩

lemma yzWrites_mem_name {outDir stem : String} {img masks : Vol} {mm : Int}
    {nx : Nat} {e : Effect} (he : e ∈ yzWrites outDir stem img masks mm nx) :
    ∃ i c, e = Effect.write outDir (imgNameYZ stem i) c ∨
      e = Effect.write outDir (maskNameYZ stem i) c := by
  simp only [yzWrites, List.mem_flatMap] at he
  rcases he with ⟨x, _, hx⟩
  simp only [List.mem_cons, List.not_mem_nil, or_false] at hx
  rcases hx with h | h
  · exact ⟨x, _, Or.inl h⟩
  · exact ⟨x, _, Or.inr h⟩

/-- Every effect of one file's processing is a read from the input
directory, a console warning, or a write into the output directory. -/
lemma processFile_effect_shape (inDir outDir : String) (mm : Int)
    (f : InputFile) (e : Effect)
    (he : e ∈ (processFile inDir outDir mm f).1) :
    (∃ n, e = Effect.read inDir n) ∨ (∃ m, e = Effect.warn m) ∨
      (∃ n c, e = Effect.write outDir n c) := by
  by_cases hse : f.segExists = false
  · simp only [processFile, hse, if_true, List.mem_singleton] at he
    exact Or.inr (Or.inl ⟨_, he⟩)
  · rw [Bool.not_eq_false] at hse
    by_cases hsh : f.segHasMasks = false
    · simp only [processFile, hse, hsh, Bool.true_eq_false, if_false,
        if_true, List.mem_append, List.mem_cons, List.not_mem_nil,
        or_false, List.mem_singleton] at he
      rcases he with (rfl | rfl) | rfl
      · exact Or.inl ⟨_, rfl⟩
      · exact Or.inl ⟨_, rfl⟩
      · exact Or.inr (Or.inl ⟨_, rfl⟩)
    · rw [Bool.not_eq_false] at hsh
      cases hnorm : normalizeImg f.img with
      | error msg =>
        simp only [processFile, hse, hsh, hnorm, Bool.true_eq_false,
          if_false, List.mem_cons, List.not_mem_nil, or_false] at he
        rcases he with rfl | rfl
        · exact Or.inl ⟨_, rfl⟩
        · exact Or.inl ⟨_, rfl⟩
      | ok img =>
        simp only [processFile, hse, hsh, hnorm, Bool.true_eq_false,
          if_false, List.mem_append, List.mem_cons, List.not_mem_nil,
          or_false] at he
        rcases he with (((rfl | rfl) | hxy) | hxz) | hyz
        · exact Or.inl ⟨_, rfl⟩
        · exact Or.inl ⟨_, rfl⟩
        · rcases xyWrites_mem hxy with ⟨n, c, rfl⟩
          exact Or.inr (Or.inr ⟨n, c, rfl⟩)
        · rcases xzWrites_mem hxz with ⟨n, c, rfl⟩
          exact Or.inr (Or.inr ⟨n, c, rfl⟩)
        · rcases yzWrites_mem hyz with ⟨n, c, rfl⟩
          exact Or.inr (Or.inr ⟨n, c, rfl⟩)

lemma runFiles_effect_shape (inDir outDir : String) (mm : Int)
    (files : List InputFile) (e : Effect)
    (he : e ∈ runFiles inDir outDir mm files) :
    (∃ n, e = Effect.read inDir n) ∨ (∃ m, e = Effect.warn m) ∨
      (∃ n c, e = Effect.write outDir n c) := by
  induction files with
  | nil => simp [runFiles] at he
  | cons f rest ih =>
    rw [runFiles] at he
    rcases hpf : processFile inDir outDir mm f with ⟨effs, err⟩
    rw [hpf] at he
    cases err with
    | some msg =>
      exact processFile_effect_shape inDir outDir mm f e
        (by rw [hpf]; exact he)
    | none =>
      rcases List.mem_append.mp he with h | h
      · exact processFile_effect_shape inDir outDir mm f e
          (by rw [hpf]; exact h)
      · exact ih h

set_option maxRecDepth 100000 in
/-- C7: every write a file's processing performs uses one of the six
name templates (stem, axis tag, zero-padded index, mask or image suffix);
the numeric index of any slice position below 1000 is padded to exactly
3 characters; and for a fixed stem no XY name can equal an XZ or YZ name
(image or mask), whatever the two indices are. -/
theorem c7_naming :
    (∀ i, i < 1000 → (pad3 i).length = 3) ∧
    (∀ (inDir outDir : String) (mm : Int) (f : InputFile) (e : Effect),
      e ∈ (processFile inDir outDir mm f).1 → e.isWrite = true →
      ∃ i c, e = Effect.write outDir (imgNameXY f.stem i) c ∨
        e = Effect.write outDir (maskNameXY f.stem i) c ∨
        e = Effect.write outDir (imgNameXZ f.stem i) c ∨
        e = Effect.write outDir (maskNameXZ f.stem i) c ∨
        e = Effect.write outDir (imgNameYZ f.stem i) c ∨
        e = Effect.write outDir (maskNameYZ f.stem i) c) ∧
    (∀ (stem : String) (i j : Nat),
      imgNameXY stem i ≠ imgNameXZ stem j ∧
      imgNameXY stem i ≠ imgNameYZ stem j ∧
      imgNameXZ stem i ≠ imgNameYZ stem j ∧
      maskNameXY stem i ≠ maskNameXZ stem j ∧
      maskNameXY stem i ≠ maskNameYZ stem j ∧
      maskNameXZ stem i ≠ maskNameYZ stem j ∧
      imgNameXY stem i ≠ maskNameXZ stem j ∧
      imgNameXY stem i ≠ maskNameYZ stem j ∧
      imgNameXZ stem i ≠ maskNameYZ stem j) := by
  refine ⟨by decide, ?_, ?_⟩
  · intro inDir outDir mm f e he hw
    by_cases hse : f.segExists = false
    · simp only [processFile, hse, if_true, List.mem_singleton] at he
      subst he
      simp [Effect.isWrite] at hw
    · rw [Bool.not_eq_false] at hse
      by_cases hsh : f.segHasMasks = false
      · simp only [processFile, hse, hsh, Bool.true_eq_false, if_false,
          if_true, List.mem_append, List.mem_cons, List.not_mem_nil,
          or_false, List.mem_singleton] at he
        rcases he with (rfl | rfl) | rfl <;> simp [Effect.isWrite] at hw
      · rw [Bool.not_eq_false] at hsh
        cases hnorm : normalizeImg f.img with
        | error msg =>
          simp only [processFile, hse, hsh, hnorm, Bool.true_eq_false,
            if_false, List.mem_cons, List.not_mem_nil, or_false] at he
          rcases he with rfl | rfl <;> simp [Effect.isWrite] at hw
        | ok img =>
          simp only [processFile, hse, hsh, hnorm, Bool.true_eq_false,
            if_false, List.mem_append, List.mem_cons, List.not_mem_nil,
            or_false] at he
          rcases he with (((rfl | rfl) | hxy) | hxz) | hyz
          · simp [Effect.isWrite] at hw
          · simp [Effect.isWrite] at hw
          · rcases xyWrites_mem_name hxy with ⟨i, c, rfl | rfl⟩
            · exact ⟨i, c, Or.inl rfl⟩
            · exact ⟨i, c, Or.inr (Or.inl rfl)⟩
          · rcases xzWrites_mem_name hxz with ⟨i, c, rfl | rfl⟩
            · exact ⟨i, c, Or.inr (Or.inr (Or.inl rfl))⟩
            · exact ⟨i, c, Or.inr (Or.inr (Or.inr (Or.inl rfl)))⟩
          · rcases yzWrites_mem_name hyz with ⟨i, c, rfl | rfl⟩
            · exact ⟨i, c, Or.inr (Or.inr (Or.inr (Or.inr (Or.inl rfl))))⟩
            · exact ⟨i, c,
                Or.inr (Or.inr (Or.inr (Or.inr (Or.inr rfl))))⟩
  · intro stem i j
    refine ⟨?_, ?_, ?_, ?_, ?_, ?_, ?_, ?_, ?_⟩ <;>
      first
      | exact names_distinct stem ("_XY_Z") ("_XZ_Y") (pad3 i) (pad3 j)
          (".tif") (".tif") 2 (by decide) (by decide) (by decide)
      | exact names_distinct stem ("_XY_Z") ("_YZ_X") (pad3 i) (pad3 j)
          (".tif") (".tif") 1 (by decide) (by decide) (by decide)
      | exact names_distinct stem ("_XZ_Y") ("_YZ_X") (pad3 i) (pad3 j)
          (".tif") (".tif") 1 (by decide) (by decide) (by decide)
      | exact names_distinct stem ("_XY_Z") ("_XZ_Y") (pad3 i) (pad3 j)
          ("_cp_masks.tif") ("_cp_masks.tif") 2 (by decide) (by decide)
          (by decide)
      | exact names_distinct stem ("_XY_Z") ("_YZ_X") (pad3 i) (pad3 j)
          ("_cp_masks.tif") ("_cp_masks.tif") 1 (by decide) (by decide)
          (by decide)
      | exact names_distinct stem ("_XZ_Y") ("_YZ_X") (pad3 i) (pad3 j)
          ("_cp_masks.tif") ("_cp_masks.tif") 1 (by decide) (by decide)
          (by decide)
      | exact names_distinct stem ("_XY_Z") ("_XZ_Y") (pad3 i) (pad3 j)
          (".tif") ("_cp_masks.tif") 2 (by decide) (by decide) (by decide)
      | exact names_distinct stem ("_XY_Z") ("_YZ_X") (pad3 i) (pad3 j)
          (".tif") ("_cp_masks.tif") 1 (by decide) (by decide) (by decide)
      | exact names_distinct stem ("_XZ_Y") ("_YZ_X") (pad3 i) (pad3 j)
          (".tif") ("_cp_masks.tif") 1 (by decide) (by decide) (by decide)

/-- C7, witness. -/
theorem c7_naming_witness :
    (pad3 7).length = 3 ∧ imgNameXY ("a") 3 ≠ imgNameXZ ("a") 3 :=
  ⟨c7_naming.1 7 (by decide), (c7_naming.2.2 ("a") 3 3).1⟩

/-- C8: two runs whose configurations agree on everything except the
anisotropy value produce identical effects — the anisotropy constant is
read into the configuration but consumed by no slicing logic. -/
theorem c8_anisotropy_noninterference (c1 c2 : Config)
    (files : List InputFile) (ht : c1.train_dir = c2.train_dir)
    (ho : c1.output_dir = c2.output_dir)
    (hm : c1.min_masks = c2.min_masks) :
    runPipeline c1 files = runPipeline c2 files := by
  simp [runPipeline, ht, ho, hm]

/-- C8, witness: the script's anisotropy 3.85 against a different value. -/
theorem c8_anisotropy_noninterference_witness :
    runPipeline ⟨("t"), ("o"), 77 / 20, 1⟩ [] =
      runPipeline ⟨("t"), ("o"), 2, 1⟩ [] :=
  c8_anisotropy_noninterference ⟨("t"), ("o"), 77 / 20, 1⟩
    ⟨("t"), ("o"), 2, 1⟩ [] rfl rfl rfl

/-- C9: every filesystem mutation of a run is the creation of the output
directory or a write into the output directory; input files only ever
appear in read effects, never in mutations. -/
theorem c9_frame (cfg : Config) (files : List InputFile) (e : Effect)
    (he : e ∈ runPipeline cfg files) (hm : e.isMutation = true) :
    e = Effect.mkdir cfg.output_dir ∨
      ∃ n c, e = Effect.write cfg.output_dir n c := by
  simp only [runPipeline, List.mem_cons] at he
  rcases he with rfl | h
  · exact Or.inl rfl
  · rcases runFiles_effect_shape _ _ _ _ _ h with
      ⟨n, rfl⟩ | ⟨m, rfl⟩ | ⟨n, c, rfl⟩
    · simp [Effect.isMutation] at hm
    · simp [Effect.isMutation] at hm
    · exact Or.inr ⟨n, c, rfl⟩

/-- C9, witness. -/
theorem c9_frame_witness :
    Effect.mkdir ("o") = Effect.mkdir ("o") ∨
      ∃ n c, Effect.mkdir ("o") = Effect.write ("o") n c :=
  c9_frame ⟨("t"), ("o"), 1, 1⟩ [] (Effect.mkdir ("o"))
    (by simp [runPipeline, runFiles]) rfl

lemma castRow_congr (r s : List Nat)
    (h : List.Forall₂ (fun a b => a % 65536 = b % 65536) r s) :
    r.map (fun v => v % 65536) = s.map (fun v => v % 65536) := by
  induction h with
  | nil => rfl
  | cons hab _ ih => simp only [List.map_cons, hab, ih]

/-- C10: the written pixel of a persisted label slice is the original label
reduced modulo 2^16; labels congruent modulo 65536 yield identical written
slices; and on the volume holding background and the single label 65536
the save decision still counts that label (the slice is saved) while the
written mask is entirely background 0. -/
theorem c10_uint16_cast :
    (∀ (s : Slice2) (i j : Nat),
      ((castSlice s).getD i []).getD j 0 =
        ((s.getD i []).getD j 0) % 65536) ∧
    (∀ s t : Slice2,
      List.Forall₂ (List.Forall₂ (fun a b => a % 65536 = b % 65536)) s t →
      castSlice s = castSlice t) ∧
    (0 ∈ savedXY mod65Vol 1 1 ∧
      Effect.write ("out") (maskNameXY ("f") 0) [[0, 0]] ∈
        (processFile ("in") ("out") 1
          ⟨("f"), ImgData.d3 [[[1, 2]]], true, true, mod65Vol⟩).1) := by
  refine ⟨?_, ?_, by decide⟩
  · intro s i j
    simp only [castSlice, List.getD_eq_getElem?_getD, List.getElem?_map]
    cases hs : s[i]? with
    | none => simp
    | some r =>
      simp only [Option.map_some', Option.getD_some, List.getElem?_map]
      cases hr : r[j]? with
      | none => simp
      | some v => simp
  · intro s t h
    induction h with
    | nil => rfl
    | cons hab _ ih =>
      simp only [castSlice, List.map_cons] at ih ⊢
      rw [castRow_congr _ _ hab]
      rw [List.cons_inj_right]
      simpa [castSlice] using ih

/-- C10, witness. -/
theorem c10_uint16_cast_witness :
    ((castSlice [[7]]).getD 0 []).getD 0 0 = 7 % 65536 ∧
      castSlice [[5]] = castSlice [[65541]] :=
  ⟨c10_uint16_cast.1 [[7]] 0 0,
   c10_uint16_cast.2.1 [[5]] [[65541]]
     (List.Forall₂.cons (List.Forall₂.cons (by decide) List.Forall₂.nil)
       List.Forall₂.nil)⟩

end Extraction3D
